import Mathlib

/-!
# Axom Observer — verification of spec claims against a shallow embedding

This file embeds, in Lean 4, the parts of the Axom Observer Go code that the
spec's claims talk about:

* `pkg/models` — the `Signal` record and its `Redact` method;
* the exporter (`SignalSender`): `Start` (batch loop), `sendBatchWithRetry`,
  `sendBatchOnce`, `Send`, `SendBatchCompat`;
* the provider registry (`knownAIProviders`) and the three
  `detectAIProvider` variants (HTTPS proxy, HTTP proxy, production proxy);
* `determineOperation`;
* the MITM leaf-certificate paths (`MITMProxy.getOrCreateCert` and
  `HTTPSProxy.generateCert`);
* the task detector (`TaskDetector`): rules, `matchesConditions`,
  `matchesPattern`, `matchesTaskRule`, `calculateConfidence`, `DetectTask`.

Go machine floats that carry rule confidences are modelled as `ℚ` (the
arithmetic the claims mention — averages of 0.8/0.6-style literals — is
exact in both). The Go `regexp` engine is modelled by an oracle parameter
`String → String → Option Bool` (`none` = compile error), with a concrete
executable instance covering the case-insensitive literal-alternation
patterns the built-in rules use. Network effects are modelled by passing
the per-attempt HTTP outcome as data.
-/

namespace Axom

/-! ## String helpers (kernel-reducible counterparts of Go `strings` calls) -/

/-- `chPre pat l` : `pat` is a prefix of `l` (char lists). -/
def chPre : List Char → List Char → Bool
  | [], _ => true
  | _ :: _, [] => false
  | a :: as, b :: bs => a == b && chPre as bs

/-- `chInf pat l` : `pat` occurs as a contiguous sublist of `l`. -/
def chInf (pat : List Char) : List Char → Bool
  | [] => chPre pat []
  | c :: cs => chPre pat (c :: cs) || chInf pat cs

/-- Go `strings.HasPrefix s pat`. -/
def strStarts (s pat : String) : Bool := chPre pat.data s.data

/-- Go `strings.HasSuffix s pat`. -/
def strEnds (s pat : String) : Bool := chPre pat.data.reverse s.data.reverse

/-- Go `strings.Contains s pat`. -/
def strHas (s pat : String) : Bool := chInf pat.data s.data

/-- Go `strings.ReplaceAll s "*" ""` (removing a single character is a filter). -/
def dropStars (s : String) : String := ⟨s.data.filter (· != '*')⟩

/-- Go `strings.ToLower` restricted to the ASCII data in play. -/
def lowerStr (s : String) : String := ⟨s.data.map Char.toLower⟩

/-! ## Data model: `models.Signal` (pkg/models/signal.go) -/

/-- A value in the open-typed `map[string]interface{}` metadata. -/
inductive MValue where
  | str (s : String)
  | int (n : Int)
  | rat (q : ℚ)
  | bool (b : Bool)
  | null
  deriving DecidableEq, Repr

/-- Association-list model of a Go `map[string]interface{}`. -/
abbrev MMap := List (String × MValue)

/-- Map lookup (`m[k]`, with the `ok` flag encoded as `Option`). -/
def mGet (m : MMap) (k : String) : Option MValue :=
  match m with
  | [] => none
  | (k', v) :: rest => if k' == k then some v else mGet rest k

/-- Map update `m[k] = v` (replaces the binding when present, else appends). -/
def mSet (m : MMap) (k : String) (v : MValue) : MMap :=
  match m with
  | [] => [(k, v)]
  | (k', v') :: rest => if k' == k then (k, v) :: rest else (k', v') :: mSet rest k v

/-- `models.Signal` — the fields the claims touch. -/
structure Signal where
  id : String := ""
  customerID : String := ""
  agentID : String := ""
  taskID : String := ""
  timestamp : Int := 0
  latencyMS : ℚ := 0
  protocol : String := ""
  operation : String := ""
  status : Int := 0
  metadata : MMap := []
  taskType : String := ""
  outcome : String := ""
  outcomeData : MMap := []
  deriving DecidableEq, Repr

/-- `Signal.Redact(fields ...string)`: each listed field that is present in
`Metadata` (and likewise in `OutcomeData`) is replaced by `"[REDACTED]"`. -/
def Signal.redact (s : Signal) (fields : List String) : Signal :=
  { s with
    metadata :=
      fields.foldl
        (fun m f => if (mGet m f).isSome then mSet m f (.str "[REDACTED]") else m)
        s.metadata
    outcomeData :=
      fields.foldl
        (fun m f => if (mGet m f).isSome then mSet m f (.str "[REDACTED]") else m)
        s.outcomeData }

/-! ## Signal exporter (`SignalSender`, observer package)

HTTP outcomes are passed in as data: one `AttemptResult` per POST attempt. -/

/-- The observable outcome of one `s.client.Do(req)` call. -/
inductive AttemptResult where
  | netErr
  | status (code : Int)
  deriving DecidableEq, Repr

/-- 2xx check in `sendBatchOnce`. -/
def isSuccess : AttemptResult → Bool
  | .netErr => false
  | .status c => 200 ≤ c && c < 300

/-- `sendBatchOnce` retries on network errors, HTTP 429 and 5xx. -/
def isRetryable : AttemptResult → Bool
  | .netErr => true
  | .status c => c == 429 || (500 ≤ c && c < 600)

/-- Counter deltas and request trace of a `SignalSender` call. -/
structure SendTrace where
  attempts : Nat
  /-- seconds slept between successive attempts, in order -/
  delays : List Nat
  sentDelta : Nat
  droppedDelta : Nat
  deriving DecidableEq, Repr

/-- `sendBatchOnce`'s effect on the counters: 2xx bumps `signalsSent` by the
batch size; a non-retryable non-2xx status bumps `signalsDropped`. -/
def sendBatchOnceCounters (r : AttemptResult) (batchLen : Nat) : Nat × Nat :=
  if isSuccess r then (batchLen, 0)
  else if isRetryable r then (0, 0)
  else
    match r with
    | .netErr => (0, 0)
    | .status _ => (0, batchLen)

/-- `maxRetries` in `sendBatchWithRetry`. -/
def maxRetries : Nat := 5

/-- `baseDelay` in `sendBatchWithRetry`, in seconds. -/
def baseDelaySec : Nat := 2

/-- The retry loop of `sendBatchWithRetry`, from a given `attempt` counter.
`outcomes i` is the result of the POST made with `attempt = i`. -/
def sendLoop (outcomes : Nat → AttemptResult) (batchLen : Nat) (attempt : Nat) :
    SendTrace :=
  let r := outcomes attempt
  let (s, d) := sendBatchOnceCounters r batchLen
  if isSuccess r then
    { attempts := 1, delays := [], sentDelta := s, droppedDelta := d }
  else if h : isRetryable r = true ∧ attempt < maxRetries then
    -- the Go guard is `!retry || attempt >= maxRetries → drop`; this is its
    -- complement, so the drop path below is that guard
    let delay := 2 ^ attempt * baseDelaySec
    let rest := sendLoop outcomes batchLen (attempt + 1)
    { attempts := rest.attempts + 1
      delays := delay :: rest.delays
      sentDelta := s + rest.sentDelta
      droppedDelta := d + rest.droppedDelta }
  else
    -- drop path: `signalsDropped.Add(len(signals))`
    { attempts := 1, delays := [], sentDelta := s, droppedDelta := d + batchLen }
  termination_by maxRetries + 1 - attempt
  decreasing_by omega

/-- `SignalSender.sendBatchWithRetry`. -/
def sendBatchWithRetry (outcomes : Nat → AttemptResult) (batchLen : Nat) :
    SendTrace :=
  sendLoop outcomes batchLen 0

/-- Result of `SignalSender.SendBatchCompat` / `Send`. -/
structure CompatResult where
  /-- bodies of the POSTs made, each a JSON array of signals -/
  posts : List (List Signal)
  isErr : Bool
  sentDelta : Nat
  droppedDelta : Nat
  deriving DecidableEq, Repr

/-- `SignalSender.SendBatchCompat`: one POST, error iff the request fails or
the status is ≥ 300; no counter updates, no retry. -/
def sendBatchCompat (r : AttemptResult) (signals : List Signal) : CompatResult :=
  { posts := [signals]
    isErr :=
      match r with
      | .netErr => true
      | .status c => 300 ≤ c
    sentDelta := 0
    droppedDelta := 0 }

/-- `SignalSender.Send`: `sig.Redact()` — note the empty field list — then
`SendBatchCompat([]models.Signal{sig})`. -/
def sendSingle (r : AttemptResult) (sig : Signal) : CompatResult :=
  sendBatchCompat r [sig.redact []]

/-! ### Exporter main loop (`SignalSender.Start`) -/

/-- One wake-up of the `select` in `Start`. -/
inductive ExportEvent where
  | sig (s : Signal)
  | tick
  | shutdown
  deriving DecidableEq, Repr

/-- The `flush` closure: POST the buffer when non-empty, then clear it. -/
def flushBuf (buf : List Signal) : List Signal × List (List Signal) :=
  if buf.length > 0 then ([], [buf]) else (buf, [])

/-- One iteration of the loop in `Start`: on a signal, redact
`authorization`/`api_key`, append, flush when the buffer has reached the
batch size; on a tick or shutdown, flush. Returns the new buffer and the
batch POSTs performed. -/
def exporterStep (batchSize : Nat) (buf : List Signal) :
    ExportEvent → List Signal × List (List Signal)
  | .sig s =>
    let b := buf ++ [s.redact ["authorization", "api_key"]]
    if batchSize ≤ b.length then flushBuf b else (b, [])
  | .tick => flushBuf buf
  | .shutdown => flushBuf buf

/-- The loop in `Start`, run over a queue of events; the loop returns after
handling a shutdown event. -/
def exporterRun (batchSize : Nat) (buf : List Signal) :
    List ExportEvent → List Signal × List (List Signal)
  | [] => (buf, [])
  | e :: es =>
    let (b, ps) := exporterStep batchSize buf e
    match e with
    | .shutdown => (b, ps)
    | _ =>
      let (b', ps') := exporterRun batchSize b es
      (b', ps ++ ps')

/-! ## Provider registry (`knownAIProviders`, ai_traffic_monitor.go) -/

/-- `AIProvider` (the `Models`/`TaskTypes` fields are never populated or read
in the source and are omitted). -/
structure AIProvider where
  name : String
  domains : List String
  apiPatterns : List String
  deriving DecidableEq, Repr

/-- The static catalog `knownAIProviders`, in declaration order. -/
def knownAIProviders : List AIProvider :=
  [ { name := "OpenAI", domains := ["api.openai.com"],
      apiPatterns := ["/v1/chat/completions", "/v1/completions", "/v1/embeddings",
        "/v1/images/generations", "/v1/audio/transcriptions",
        "/v1/audio/translations", "/v1/moderations"] }
  , { name := "Anthropic", domains := ["api.anthropic.com"],
      apiPatterns := ["/v1/messages", "/v1/complete"] }
  , { name := "Google AI",
      domains := ["generativelanguage.googleapis.com", "aiplatform.googleapis.com"],
      apiPatterns := ["/v1beta/models", "/v1/projects"] }
  , { name := "Cohere", domains := ["api.cohere.ai"],
      apiPatterns := ["/v1/generate", "/v1/embed", "/v1/classify", "/v1/summarize"] }
  , { name := "Together AI", domains := ["api.together.ai"],
      apiPatterns := ["/v1/chat/completions", "/v1/completions", "/v1/embeddings",
        "/inference"] }
  , { name := "Groq", domains := ["api.groq.com"],
      apiPatterns := ["/openai/v1/chat/completions"] }
  , { name := "Hugging Face", domains := ["api-inference.huggingface.co"],
      apiPatterns := ["/models/"] }
  , { name := "Azure OpenAI", domains := ["*.openai.azure.com"],
      apiPatterns := ["/openai/deployments/"] }
  , { name := "Deepgram", domains := ["api.deepgram.com"],
      apiPatterns := ["/v1/listen", "/v1/speak"] }
  , { name := "AssemblyAI", domains := ["api.assemblyai.com"],
      apiPatterns := ["/v2/transcript", "/v2/realtime"] }
  , { name := "ElevenLabs", domains := ["api.elevenlabs.io"],
      apiPatterns := ["/v1/text-to-speech", "/v1/speech-synthesis"] }
  , { name := "PlayHT", domains := ["api.play.ht"],
      apiPatterns := ["/api/v2/tts", "/api/v1/convert"] }
  , { name := "Amazon Polly", domains := ["polly.*.amazonaws.com"],
      apiPatterns := ["/v1/speech"] }
  , { name := "Azure TTS", domains := ["*.cognitiveservices.azure.com"],
      apiPatterns := ["/sts/v1.0/issueToken", "/cognitiveservices/v1"] }
  , { name := "Dubverse", domains := ["api.dubverse.ai"],
      apiPatterns := ["/v1/text-to-speech", "/v1/dubbing"] }
  , { name := "Sarvam AI", domains := ["api.sarvam.ai"],
      apiPatterns := ["/v1/voice/tts", "/v1/llm/o/v1/chat/completions"] }
  , { name := "Twilio", domains := ["api.twilio.com"],
      apiPatterns := ["/2010-04-01/Accounts"] }
  , { name := "Plivo", domains := ["api.plivo.com"],
      apiPatterns := ["/v1/Account"] }
  , { name := "Vonage", domains := ["api.nexmo.com", "api.vonage.com"],
      apiPatterns := ["/v1/calls", "/v1/voice"] }
  , { name := "Daily", domains := ["api.daily.co"],
      apiPatterns := ["/v1/rooms", "/v1/meetings"] }
  , { name := "100ms", domains := ["api.100ms.live"],
      apiPatterns := ["/v2/rooms", "/v2/sessions"] }
  , { name := "Local AI Services", domains := ["localhost", "127.0.0.1", "0.0.0.0"],
      apiPatterns := ["/v1/chat/completions", "/v1/completions", "/v1/embeddings",
        "/v1/models", "/chat", "/embed"] } ]

/-! ### `HTTPSProxy.detectAIProvider` (https_proxy.go) -/

/-- The domain test of `HTTPSProxy.detectAIProvider`:
`(strings.HasPrefix(domain,"*") && strings.HasSuffix(host, matchPattern)) ||
 (!strings.HasPrefix(domain,"*") && host == domain)` with
`matchPattern = strings.ReplaceAll(domain, "*", "")`. -/
def domainMatchHTTPS (host domain : String) : Bool :=
  (strStarts domain "*" && strEnds host (dropStars domain)) ||
    (!strStarts domain "*" && host == domain)

/-- Inner domain loop of `HTTPSProxy.detectAIProvider` for one provider:
returns the provider on the first domain that matches and for which some
API pattern is a prefix of the path. -/
def domLoopHTTPS (p : AIProvider) (host path : String) :
    List String → Option AIProvider
  | [] => none
  | d :: ds =>
    if domainMatchHTTPS host d && p.apiPatterns.any (fun a => strStarts path a) then
      some p
    else domLoopHTTPS p host path ds

/-- `HTTPSProxy.detectAIProvider` over a provider list (outer loop). -/
def detectHTTPSGo (host path : String) : List AIProvider → Option AIProvider
  | [] => none
  | p :: ps =>
    match domLoopHTTPS p host path p.domains with
    | some r => some r
    | none => detectHTTPSGo host path ps

/-- `HTTPSProxy.detectAIProvider`. -/
def detectAIProviderHTTPS (host path : String) : Option AIProvider :=
  detectHTTPSGo host path knownAIProviders

/-! ### `HTTPProxy.detectAIProvider` (ai_traffic_monitor.go) and
`ProductionProxy.detectAIProvider` (production_proxy.go) -/

/-- The general branch shared by the HTTP proxy and the production proxy:
`strings.Contains(host, strings.ReplaceAll(domain, "*", ""))` and
`strings.Contains(path, pattern)`. -/
def detectContainsGo (host path : String) : List AIProvider → Option AIProvider
  | [] => none
  | p :: ps =>
    if p.domains.any (fun d => strHas host (dropStars d)) &&
        p.apiPatterns.any (fun a => strHas path a) then
      some p
    else detectContainsGo host path ps

/-- Path-only scan used by the HTTP proxy's localhost special case. -/
def detectPathOnlyGo (path : String) : List AIProvider → Option AIProvider
  | [] => none
  | p :: ps =>
    if p.apiPatterns.any (fun a => strHas path a) then some p
    else detectPathOnlyGo path ps

/-- `HTTPProxy.detectAIProvider`: a localhost-proxy special case (path-only
match) falling through to the contains-based scan. -/
def detectAIProviderHTTP (host path : String) : Option AIProvider :=
  match
    (if strHas host "localhost" && (strHas host "8888" || strHas host "8443") then
      detectPathOnlyGo path knownAIProviders
    else none) with
  | some p => some p
  | none => detectContainsGo host path knownAIProviders

/-- `ProductionProxy.detectAIProvider`: the contains-based scan only. -/
def detectAIProviderProd (host path : String) : Option AIProvider :=
  detectContainsGo host path knownAIProviders

/-! ### Non-AI traffic handling (claim C3) -/

/-- What a proxy hands back to the client, plus whether it emitted a signal. -/
structure ProxyOutcome where
  /-- `some (status, body)` when the proxy itself answers the client here -/
  response : Option (Int × String)
  signalEmitted : Bool
  /-- provider name attached to the emitted signal, when one is emitted -/
  providerName : Option String
  deriving DecidableEq, Repr

/-- `HTTPProxy.handleRequest` on the non-AI branch: when no provider matches,
`forwardRequest` answers `404 "Not an AI API endpoint"` and no signal is
sent. (The AI branch performs upstream I/O and is outside this model.) -/
def httpProxyNonAI (host path : String) : Option ProxyOutcome :=
  match detectAIProviderHTTP host path with
  | none =>
    some { response := some (404, "Not an AI API endpoint")
           signalEmitted := false
           providerName := none }
  | some _ => none

/-- `ProductionProxy.handleRequest`/`handleResponse` for a request whose
provider is not matched: the request proceeds with the `Unknown` fallback
provider, nothing is answered by the proxy itself, and `handleResponse`
emits a signal (modelled with a non-full channel). -/
def prodProxyNonAI (host path : String) : Option ProxyOutcome :=
  match detectAIProviderProd host path with
  | none =>
    -- `aiProvider = &AIProvider{Name: "Unknown", ...}`; pass through; signal sent
    some { response := none
           signalEmitted := true
           providerName := some "Unknown" }
  | some _ => none

/-! ## Operation classifier (`determineOperation`)

The `request` and `provider` parameters of the Go method are never read;
they are kept to mirror the signature. -/

/-- `determineOperation` (identical in https_proxy.go, ai_traffic_monitor.go
and production_proxy.go). -/
def determineOperation (path : String) (request : MMap) (provider : AIProvider) :
    String :=
  if strHas path "/chat/completions" || strHas path "/messages" then "chat_completion"
  else if strHas path "/completions" || strHas path "/generate" then "text_completion"
  else if strHas path "/embeddings" || strHas path "/embed" then "embedding"
  else if strHas path "/images/generations" then "image_generation"
  else if strHas path "/audio/transcriptions" then "audio_transcription"
  else if strHas path "/audio/translations" then "audio_translation"
  else if strHas path "/moderations" then "moderation"
  else "ai_request"

/-! ## Leaf certificates (part_008 `MITMProxy` and https_proxy.go)

A generated leaf is identified by a fresh serial drawn from `nextSerial`
(in the source, `generateLeafCert`/`generateCert` draw a fresh RSA key and
a fresh serial number, so distinct generations yield distinct
certificates). `MITMProxy.getOrCreateCert` holds `p.mu` around the whole
check–generate–insert section, so concurrent calls execute as some
serialization of atomic steps, which is what the state-passing below
models. -/

/-- The mutable state of a certificate cache plus the generation source. -/
structure CertState where
  cache : List (String × Nat)
  nextSerial : Nat
  deriving DecidableEq, Repr

/-- `certCache[serverName]` lookup. -/
def certLookup (c : List (String × Nat)) (host : String) : Option Nat :=
  match c with
  | [] => none
  | (h, n) :: rest => if h == host then some n else certLookup rest host

/-- `MITMProxy.getOrCreateCert`: return the cached leaf when present,
otherwise generate a fresh one, insert it, and return it. -/
def getOrCreateCert (host : String) (st : CertState) : Nat × CertState :=
  match certLookup st.cache host with
  | some c => (c, st)
  | none =>
    (st.nextSerial,
      { cache := (host, st.nextSerial) :: st.cache, nextSerial := st.nextSerial + 1 })

/-- `HTTPSProxy.generateCert`: no cache — every call generates a fresh leaf
for the hostname. -/
def generateCertHTTPS (host : String) (st : CertState) : Nat × CertState :=
  (st.nextSerial, { st with nextSerial := st.nextSerial + 1 })

/-- `n` successive `getOrCreateCert` calls for `host`, collecting results. -/
def iterGetOrCreate (host : String) : Nat → CertState → List Nat × CertState
  | 0, st => ([], st)
  | n + 1, st =>
    let (c, st') := getOrCreateCert host st
    let (cs, st'') := iterGetOrCreate host n st'
    (c :: cs, st'')

/-- `n` successive `HTTPSProxy.generateCert` calls for `host`. -/
def iterGenerateCert (host : String) : Nat → CertState → List Nat × CertState
  | 0, st => ([], st)
  | n + 1, st =>
    let (c, st') := generateCertHTTPS host st
    let (cs, st'') := iterGenerateCert host n st'
    (c :: cs, st'')

/-! ## Task detector (part_007)

The Go `regexp` engine appears as an oracle `rx : String → String → Option
Bool`; `rx pat text = none` models `regexp.MatchString` returning an
error. `goRegexMatch` below is a concrete executable instance faithful to
Go semantics on the restricted pattern language that actually reaches the
detector: `(?i)(lit₁|lit₂|…)` with literal alternatives, which matches iff
some alternative occurs in the text case-insensitively, and plain
alphanumeric literals (such as the condition-map keys `content`, `path`,
`response` — valid regexes matching their own occurrence, case-
sensitively). Any other pattern is reported as unsupported (`none`). -/

/-- Split a char list at `'|'` separators. -/
def splitBar : List Char → List (List Char)
  | [] => [[]]
  | c :: cs =>
    match splitBar cs with
    | [] => [[c]]
    | h :: t => if c == '|' then [] :: h :: t else (c :: h) :: t

/-- Concrete model of `regexp.MatchString pat text` for case-insensitive
literal alternations and for plain alphanumeric literal patterns (which in
Go match exactly when they occur in the text); `none` for anything else
(including invalid regexes such as `"("`). -/
def goRegexMatch (pat text : String) : Option Bool :=
  let inner := (pat.data.drop 5).dropLast
  if strStarts pat "(?i)(" && strEnds pat ")" &&
      inner.all (fun c => c.isAlphanum || c == ' ' || c == '|') then
    some ((splitBar inner).any
      (fun alt => chInf (alt.map Char.toLower) (text.data.map Char.toLower)))
  else if pat.data.all (fun c => c.isAlphanum) then
    some (chInf pat.data text.data)
  else none

/-- `TaskPattern` (field `Type` renamed `ptype`: Lean keyword). -/
structure TaskPattern where
  ptype : String
  conditions : List (String × String)
  confidence : ℚ
  required : Bool
  deriving DecidableEq, Repr

/-- `TaskRule` (the `Outcomes`, `Timeout` and `Metadata` fields are unused
by the claims under verification and are omitted). -/
structure TaskRule where
  name : String
  description : String
  provider : String
  patterns : List TaskPattern
  deriving DecidableEq, Repr

/-- `models.Task` — the fields `DetectTask` populates. -/
structure Task where
  id : String
  customerID : String
  agentID : String
  ttype : String
  status : String
  createdAt : Int
  metadata : MMap
  signals : List String
  deriving DecidableEq, Repr

/-- The built-in rule set from `initializeTaskRules`, in declaration order.
Each pattern's `Conditions` map holds a field-name key (`"content"` or
`"path"`) with the regex as its value — exactly as written in the source,
whose struct comment reads `Conditions map[string]string // field -> regex
pattern`. Note that `matchesConditions` iterates the KEYS of this map. -/
def taskRules : List TaskRule :=
  [ { name := "cold_calling", description := "Cold calling and lead generation",
      provider := "any",
      patterns :=
        [ { ptype := "prompt",
            conditions := [("content",
                "(?i)(cold call|lead generation|prospecting|sales call|outreach)")],
            confidence := 0.8, required := true }
        , { ptype := "prompt",
            conditions := [("content", "(?i)(script|dialogue|conversation|pitch)")],
            confidence := 0.6, required := false } ] }
  , { name := "email_marketing", description := "Email marketing and campaigns",
      provider := "any",
      patterns :=
        [ { ptype := "prompt",
            conditions := [("content", "(?i)(email|newsletter|campaign|blast|sequence)")],
            confidence := 0.9, required := true } ] }
  , { name := "customer_support", description := "Customer support and help desk",
      provider := "any",
      patterns :=
        [ { ptype := "prompt",
            conditions := [("content",
                "(?i)(support|help|issue|problem|ticket|complaint)")],
            confidence := 0.8, required := true } ] }
  , { name := "content_creation", description := "Content creation and writing",
      provider := "any",
      patterns :=
        [ { ptype := "prompt",
            conditions := [("content", "(?i)(write|create|generate|compose|draft)")],
            confidence := 0.7, required := true }
        , { ptype := "prompt",
            conditions := [("content", "(?i)(blog|article|post|content|copy)")],
            confidence := 0.6, required := false } ] }
  , { name := "data_analysis", description := "Data analysis and insights",
      provider := "any",
      patterns :=
        [ { ptype := "prompt",
            conditions := [("content",
                "(?i)(analyze|analysis|insights|data|metrics|statistics)")],
            confidence := 0.8, required := true } ] }
  , { name := "code_generation", description := "Code generation and programming",
      provider := "any",
      patterns :=
        [ { ptype := "prompt",
            conditions := [("content", "(?i)(code|program|function|script|algorithm)")],
            confidence := 0.9, required := true } ] }
  , { name := "translation", description := "Language translation",
      provider := "any",
      patterns :=
        [ { ptype := "prompt",
            conditions := [("content", "(?i)(translate|translation|language|convert)")],
            confidence := 0.9, required := true } ] }
  , { name := "image_generation", description := "Image generation and creation",
      provider := "any",
      patterns :=
        [ { ptype := "endpoint",
            conditions := [("path", "(?i)(image|generation|dall|midjourney)")],
            confidence := 0.9, required := true } ] }
  , { name := "meeting_scheduling",
      description := "Meeting scheduling and calendar management",
      provider := "any",
      patterns :=
        [ { ptype := "prompt",
            conditions := [("content",
                "(?i)(schedule|meeting|appointment|calendar|book)")],
            confidence := 0.8, required := true } ] }
  , { name := "research", description := "Research and information gathering",
      provider := "any",
      patterns :=
        [ { ptype := "prompt",
            conditions := [("content",
                "(?i)(research|find|search|investigate|look up)")],
            confidence := 0.8, required := true } ] }
  , { name := "summarization", description := "Text summarization and extraction",
      provider := "any",
      patterns :=
        [ { ptype := "prompt",
            conditions := [("content",
                "(?i)(summarize|summary|extract|key points|main points)")],
            confidence := 0.9, required := true } ] }
  , { name := "sentiment_analysis",
      description := "Sentiment analysis and emotion detection",
      provider := "any",
      patterns :=
        [ { ptype := "prompt",
            conditions := [("content", "(?i)(sentiment|emotion|feeling|tone|mood)")],
            confidence := 0.8, required := true } ] }
  , { name := "question_answering",
      description := "Question answering and knowledge retrieval",
      provider := "any",
      patterns :=
        [ { ptype := "prompt",
            conditions := [("content", "(?i)(what|how|why|when|where|who|which)")],
            confidence := 0.7, required := true } ] } ]

/-- `matchesConditions`: iterate the condition map's keys as regexes; an
erroring regex is logged and the loop `continue`s; a non-matching regex
returns `false`; otherwise `true`. -/
def matchesConditions (rx : String → String → Option Bool) (text : String) :
    List (String × String) → Bool
  | [] => true
  | c :: rest =>
    match rx c.1 text with
    | none => matchesConditions rx text rest      -- invalid regex: log, continue
    | some true => matchesConditions rx text rest
    | some false => false

/-- `matchesPattern`: dispatch on the pattern type to a metadata field; a
missing (or non-string) field is a non-match. -/
def matchesPattern (rx : String → String → Option Bool) (sig : Signal)
    (pat : TaskPattern) : Bool :=
  let field :=
    if pat.ptype == "prompt" then mGet sig.metadata "prompt_preview"
    else if pat.ptype == "response" then mGet sig.metadata "response_preview"
    else if pat.ptype == "model" then mGet sig.metadata "model"
    else if pat.ptype == "endpoint" then mGet sig.metadata "endpoint"
    else none
  match field with
  | some (.str s) => matchesConditions rx s pat.conditions
  | _ => false

/-- `matchesTaskRule`: the provider gate (only rejecting when the metadata
carries a different provider string) and then every `required` pattern
must match. -/
def matchesTaskRule (rx : String → String → Option Bool) (sig : Signal)
    (rule : TaskRule) : Bool :=
  let providerOK :=
    if rule.provider != "any" then
      match mGet sig.metadata "provider" with
      | some (.str pv) => pv == rule.provider
      | _ => true
    else true
  providerOK && rule.patterns.all (fun p => !p.required || matchesPattern rx sig p)

/-- `calculateConfidence`: average of `pattern.Confidence` over the matched
patterns; `0` when none matched. -/
def calculateConfidence (rx : String → String → Option Bool) (sig : Signal)
    (rule : TaskRule) : ℚ :=
  let step := fun (acc : ℚ × ℕ) (p : TaskPattern) =>
    if matchesPattern rx sig p then (acc.1 + p.confidence, acc.2 + 1) else acc
  let (total, count) := rule.patterns.foldl step (0, 0)
  if count == 0 then 0 else total / count

/-- `generateTaskID`: `fmt.Sprintf("%s_%s_%s_%d", …)` with `time.Now().Unix()`
passed in as `now`. -/
def generateTaskID (customerID agentID taskType : String) (now : Int) : String :=
  customerID ++ "_" ++ agentID ++ "_" ++ taskType ++ "_" ++ toString now

/-- `TaskDetector.DetectTask`: first matching rule yields a `Task`; otherwise
`nil`. -/
def detectTask (rx : String → String → Option Bool) (now : Int) (sig : Signal) :
    Option Task :=
  (taskRules.find? (matchesTaskRule rx sig)).map fun rule =>
    { id := generateTaskID sig.customerID sig.agentID rule.name now
      customerID := sig.customerID
      agentID := sig.agentID
      ttype := rule.name
      status := "in_progress"
      createdAt := sig.timestamp
      metadata :=
        [ ("description", .str rule.description)
        , ("provider", (mGet sig.metadata "provider").getD .null)
        , ("model", (mGet sig.metadata "model").getD .null)
        , ("confidence", .rat (calculateConfidence rx sig rule)) ]
      signals := [sig.id] }

/-! ## Spec-side formulations used by refinement-style claims -/

/-- Spec-side operation table (§4.D of the spec / claim C6), written from the
claim's words: path-substring checks in the stated fixed order, first match
wins, any other path yields `ai_request`. A function of the path alone. -/
def operationSpecTable (path : String) : String :=
  if strHas path "/chat/completions" || strHas path "/messages" then "chat_completion"
  else if strHas path "/completions" || strHas path "/generate" then "text_completion"
  else if strHas path "/embeddings" || strHas path "/embed" then "embedding"
  else if strHas path "/images/generations" then "image_generation"
  else if strHas path "/audio/transcriptions" then "audio_transcription"
  else if strHas path "/audio/translations" then "audio_translation"
  else if strHas path "/moderations" then "moderation"
  else "ai_request"

/-- Claim C9's domain-matching rule, written from the claim's words: a
pattern beginning with `*.` matches exactly the hosts ending (case-
insensitively) with the suffix after `*.`; otherwise the host must equal
the pattern case-insensitively. -/
def domainMatchClaim (host pattern : String) : Bool :=
  if strStarts pattern "*." then
    strEnds (lowerStr host) (lowerStr ⟨pattern.data.drop 2⟩)
  else lowerStr host == lowerStr pattern

/-- Claim C9's `detect(host, path)`, written from the claim's words: first
provider with a matching domain pattern and an API path prefix matching
the request path. -/
def detectClaim (host path : String) : Option AIProvider :=
  knownAIProviders.find? fun p =>
    p.domains.any (domainMatchClaim host) &&
      p.apiPatterns.any (fun a => strStarts path a)

/-! ## Helper lemmas -/

/-- `Signal.redact` with an empty field list changes nothing
(the loops in `Redact` have nothing to iterate). -/
theorem redact_nil (s : Signal) : s.redact [] = s := rfl

/-- The inner domain loop of `HTTPSProxy.detectAIProvider` succeeds exactly
when some domain matches and some API pattern is a prefix of the path. -/
theorem domLoopHTTPS_eq (p : AIProvider) (host path : String) (ds : List String) :
    domLoopHTTPS p host path ds =
      if ds.any (domainMatchHTTPS host) &&
          p.apiPatterns.any (fun a => strStarts path a) then some p else none := by
  induction ds with
  | nil => simp [domLoopHTTPS]
  | cons d ds ih =>
    cases hd : domainMatchHTTPS host d <;>
      cases hp : p.apiPatterns.any (fun a => strStarts path a) <;>
        simp [domLoopHTTPS, List.any_cons, ih, hd, hp]

/-- The outer loop of `HTTPSProxy.detectAIProvider` is a first-match search. -/
theorem detectHTTPSGo_eq_find (host path : String) (ps : List AIProvider) :
    detectHTTPSGo host path ps =
      ps.find? fun p =>
        p.domains.any (domainMatchHTTPS host) &&
          p.apiPatterns.any (fun a => strStarts path a) := by
  induction ps with
  | nil => rfl
  | cons p ps ih =>
    simp only [detectHTTPSGo, domLoopHTTPS_eq, List.find?]
    cases h : p.domains.any (domainMatchHTTPS host) &&
        p.apiPatterns.any (fun a => strStarts path a) <;> simp [h, ih]

/-- The contains-based scan shared by the HTTP and production proxies is a
first-match search. -/
theorem detectContainsGo_eq_find (host path : String) (ps : List AIProvider) :
    detectContainsGo host path ps =
      ps.find? fun p =>
        p.domains.any (fun d => strHas host (dropStars d)) &&
          p.apiPatterns.any (fun a => strHas path a) := by
  induction ps with
  | nil => rfl
  | cons p ps ih =>
    simp only [detectContainsGo, List.find?]
    cases h : p.domains.any (fun d => strHas host (dropStars d)) &&
        p.apiPatterns.any (fun a => strHas path a) <;> simp [h, ih]

/-- The path-only scan of the HTTP proxy's localhost case is a first-match
search. -/
theorem detectPathOnlyGo_eq_find (path : String) (ps : List AIProvider) :
    detectPathOnlyGo path ps =
      ps.find? fun p => p.apiPatterns.any fun a => strHas path a := by
  induction ps with
  | nil => rfl
  | cons p ps ih =>
    simp only [detectPathOnlyGo, List.find?]
    cases h : p.apiPatterns.any (fun a => strHas path a) <;> simp [h, ih]

/-! ## Claim theorems -/

/-- C6 — Operation classification: `determineOperation` ignores its `request`
and `provider` arguments (a pure function of the URL path), agrees with the
claim's fixed-order substring table everywhere (first match wins, any other
path yields `ai_request`), and maps `"/v1/chat/completions"` to
`"chat_completion"`. -/
theorem determineOperation_pure_and_table :
    (∀ path r₁ p₁ r₂ p₂,
        determineOperation path r₁ p₁ = determineOperation path r₂ p₂) ∧
    (∀ path r p, determineOperation path r p = operationSpecTable path) ∧
    (∀ r p, determineOperation "/v1/chat/completions" r p = "chat_completion") := by
  refine ⟨fun path r₁ p₁ r₂ p₂ => rfl, fun path r p => rfl, fun r p => rfl⟩

/-- C1 — the redaction invariant is broken on the single-signal exporter path:
`SignalSender.Send` calls `sig.Redact()` with an empty field list, so a
signal whose metadata carries `authorization`/`api_key` secrets is POSTed
with the secrets intact, while the claim requires `"[REDACTED]"`. The batch
path's field list (as in `Start`) does redact the same signal. -/
theorem send_leaks_unredacted_secrets :
    -- the failing input: a signal with secrets in `metadata` and `outcome_data`
    (sendSingle (.status 200)
        { metadata := [("authorization", .str "secret-token"),
                       ("api_key", .str "sk-12345")]
          outcomeData := [("api_key", .str "sk-12345")] }).posts =
      [[{ metadata := [("authorization", .str "secret-token"),
                       ("api_key", .str "sk-12345")]
          outcomeData := [("api_key", .str "sk-12345")] }]] ∧
    -- the POSTed body still holds the secret, not "[REDACTED]"
    mGet [("authorization", MValue.str "secret-token"),
          ("api_key", MValue.str "sk-12345")] "authorization" =
      some (.str "secret-token") ∧
    (MValue.str "secret-token" ≠ MValue.str "[REDACTED]") ∧
    -- the batch path's Redact call does produce "[REDACTED]" on the same signal
    mGet (Signal.redact
        { metadata := [("authorization", .str "secret-token"),
                       ("api_key", .str "sk-12345")]
          outcomeData := [("api_key", .str "sk-12345")] }
        ["authorization", "api_key"]).metadata "authorization" =
      some (.str "[REDACTED]") ∧
    mGet (Signal.redact
        { metadata := [("authorization", .str "secret-token"),
                       ("api_key", .str "sk-12345")]
          outcomeData := [("api_key", .str "sk-12345")] }
        ["authorization", "api_key"]).outcomeData "api_key" =
      some (.str "[REDACTED]") := by
  refine ⟨rfl, rfl, by decide, rfl, rfl⟩

/-- C10 — `SignalSender.Send`: exactly one POST of a one-element array (the
signal unchanged, since `Redact` is called with no field names), no retry
and no backoff, an error iff the request itself failed or the status is
≥ 300, and no change to the sent/dropped counters. -/
theorem send_single_shot (sig : Signal) :
    (∀ r, (sendSingle r sig).posts = [[sig]]) ∧
    sig.redact [] = sig ∧
    (∀ r, (sendSingle r sig).sentDelta = 0 ∧ (sendSingle r sig).droppedDelta = 0) ∧
    (sendSingle .netErr sig).isErr = true ∧
    (∀ c : Int, (sendSingle (.status c) sig).isErr = decide (300 ≤ c)) := by
  refine ⟨fun r => rfl, redact_nil sig, fun r => ⟨rfl, rfl⟩, rfl, fun c => ?_⟩
  simp [sendSingle, sendBatchCompat]

/-- C2 counterexample — with every attempt answered HTTP 500 (retryable),
`sendBatchWithRetry` makes 6 POST attempts, not at most 5 as claimed: the
loop performs the initial attempt plus `maxRetries = 5` retries. Delays,
drop and counters behave as the claim says. -/
theorem sendBatchWithRetry_six_attempts :
    sendBatchWithRetry (fun _ => .status 500) 50 =
      { attempts := 6, delays := [2, 4, 8, 16, 32],
        sentDelta := 0, droppedDelta := 50 } ∧
    ¬ (sendBatchWithRetry (fun _ => .status 500) 50).attempts ≤ 5 := by
  constructor
  · simp [sendBatchWithRetry, sendLoop, sendBatchOnceCounters, isSuccess,
      isRetryable, maxRetries, baseDelaySec]
  · simp [sendBatchWithRetry, sendLoop, sendBatchOnceCounters, isSuccess,
      isRetryable, maxRetries, baseDelaySec]

/-- C2 (amended) — for every batch all of whose POST attempts fail with a
retryable error (network error, HTTP 429 or 5xx), `sendBatchWithRetry`
makes exactly 6 POST attempts (one initial attempt plus `maxRetries = 5`
retries), sleeping 2s, 4s, 8s, 16s, 32s between successive attempts
(`baseDelay * 2^attempt`), then drops the batch: the dropped counter grows
by the batch size and the sent counter is unchanged. -/
theorem sendBatchWithRetry_retryable_trace (f : Nat → AttemptResult) (n : Nat)
    (h : ∀ i, isSuccess (f i) = false ∧ isRetryable (f i) = true) :
    sendBatchWithRetry f n =
      { attempts := 6, delays := [2, 4, 8, 16, 32],
        sentDelta := 0, droppedDelta := n } := by
  have hs : ∀ i, isSuccess (f i) = false := fun i => (h i).1
  have hr : ∀ i, isRetryable (f i) = true := fun i => (h i).2
  have hc : ∀ i, sendBatchOnceCounters (f i) n = (0, 0) := by
    intro i
    simp [sendBatchOnceCounters, hs i, hr i]
  simp [sendBatchWithRetry, sendLoop, hs, hr, hc, maxRetries, baseDelaySec]

/-- Witness for C2's amended theorem at a concrete input: all attempts answer
HTTP 503. -/
theorem sendBatchWithRetry_retryable_trace_witness :
    (∀ i : Nat, isSuccess ((fun _ => AttemptResult.status 503) i) = false ∧
        isRetryable ((fun _ => AttemptResult.status 503) i) = true) ∧
    sendBatchWithRetry (fun _ => AttemptResult.status 503) 7 =
      { attempts := 6, delays := [2, 4, 8, 16, 32],
        sentDelta := 0, droppedDelta := 7 } :=
  ⟨fun _ => ⟨rfl, rfl⟩,
    sendBatchWithRetry_retryable_trace (fun _ => .status 503) 7
      (fun _ => ⟨rfl, rfl⟩)⟩

/-- C3 counterexample — the non-AI request `GET example.com /index.html`: on
the HTTPS/MITM path (`ProductionProxy`), no provider matches, yet the proxy
does not answer 404 — it passes the request through under the fallback
provider `"Unknown"` and emits a signal, contradicting the claim that both
paths respond 404 with no signal. -/
theorem prodProxy_passes_nonAI_and_signals :
    detectAIProviderProd "example.com" "/index.html" = none ∧
    prodProxyNonAI "example.com" "/index.html" =
      some { response := none, signalEmitted := true,
             providerName := some "Unknown" } ∧
    (∀ o, prodProxyNonAI "example.com" "/index.html" = some o →
      o.response = none ∧ o.signalEmitted = true) := by
  refine ⟨by decide, by decide, ?_⟩
  intro o ho
  have : o = { response := none, signalEmitted := true,
               providerName := some "Unknown" } := by
    have h := ho.symm.trans (by decide :
      prodProxyNonAI "example.com" "/index.html" =
        some { response := none, signalEmitted := true,
               providerName := some "Unknown" })
    exact Option.some.inj h.symm |>.symm
  simp [this]

/-- C3 (amended) — only the HTTP proxy path refuses non-AI traffic: when no
provider matches, `HTTPProxy.forwardRequest` answers `404` with body
`"Not an AI API endpoint"` and emits no signal, while the HTTPS/MITM path
(`ProductionProxy`) passes the request through under the fallback provider
`"Unknown"` and emits a signal for it. -/
theorem nonAI_traffic_handling (host path : String)
    (h₁ : detectAIProviderHTTP host path = none)
    (h₂ : detectAIProviderProd host path = none) :
    httpProxyNonAI host path =
      some { response := some (404, "Not an AI API endpoint"),
             signalEmitted := false, providerName := none } ∧
    prodProxyNonAI host path =
      some { response := none, signalEmitted := true,
             providerName := some "Unknown" } := by
  constructor
  · simp [httpProxyNonAI, h₁]
  · simp [prodProxyNonAI, h₂]

/-- Witness for C3's amended theorem at the spec's literal scenario
(`example.com`, `/index.html`). -/
theorem nonAI_traffic_handling_witness :
    (detectAIProviderHTTP "example.com" "/index.html" = none ∧
      detectAIProviderProd "example.com" "/index.html" = none) ∧
    (httpProxyNonAI "example.com" "/index.html" =
        some { response := some (404, "Not an AI API endpoint"),
               signalEmitted := false, providerName := none } ∧
      prodProxyNonAI "example.com" "/index.html" =
        some { response := none, signalEmitted := true,
               providerName := some "Unknown" }) :=
  ⟨⟨by decide, by decide⟩,
    nonAI_traffic_handling "example.com" "/index.html" (by decide) (by decide)⟩

/-- C5 counterexample — `HTTPSProxy.generateCert` keeps no cache: two
requests for the same hostname generate two distinct leaf certificates
(serials 0 and 1 from a fresh state), so it is false that exactly one leaf
is generated and all callers receive the same certificate. -/
theorem generateCert_no_cache :
    iterGenerateCert "api.openai.com" 2 { cache := [], nextSerial := 0 } =
      ([0, 1], { cache := [], nextSerial := 2 }) ∧
    (0 : Nat) ≠ 1 := by
  exact ⟨rfl, by decide⟩

/-- C5 (amended) — `MITMProxy.getOrCreateCert` (whose whole
check–generate–insert section runs under `p.mu`, so concurrent calls
serialize into the successive atomic steps modelled here): for a hostname
not yet cached, any `n + 1` successive requests generate exactly one leaf
(the generation counter advances by exactly 1), every caller receives that
same leaf, and it is the one left in the cache. -/
theorem getOrCreateCert_unique (host : String) (st : CertState) (n : Nat)
    (h : certLookup st.cache host = none) :
    (iterGetOrCreate host (n + 1) st).1 = List.replicate (n + 1) st.nextSerial ∧
    (iterGetOrCreate host (n + 1) st).2.nextSerial = st.nextSerial + 1 ∧
    certLookup (iterGetOrCreate host (n + 1) st).2.cache host =
      some st.nextSerial := by
  have hcached : ∀ (m : Nat) (st' : CertState) (c : Nat),
      certLookup st'.cache host = some c →
      iterGetOrCreate host m st' = (List.replicate m c, st') := by
    intro m
    induction m with
    | zero => intro st' c _; rfl
    | succ k ih =>
      intro st' c hc
      simp [iterGetOrCreate, getOrCreateCert, hc, ih st' c hc, List.replicate]
  have hfirst : getOrCreateCert host st =
      (st.nextSerial,
        { cache := (host, st.nextSerial) :: st.cache,
          nextSerial := st.nextSerial + 1 }) := by
    simp [getOrCreateCert, h]
  have hlook : certLookup ((host, st.nextSerial) :: st.cache) host =
      some st.nextSerial := by
    simp [certLookup]
  have hrest := hcached n
    { cache := (host, st.nextSerial) :: st.cache, nextSerial := st.nextSerial + 1 }
    st.nextSerial hlook
  simp [iterGetOrCreate, hfirst, hrest, hlook, List.replicate]

/-- Witness for C5's amended theorem: three requests for `example.com` from
an empty cache. -/
theorem getOrCreateCert_unique_witness :
    certLookup (CertState.mk [] 0).cache "example.com" = none ∧
    ((iterGetOrCreate "example.com" (2 + 1) (CertState.mk [] 0)).1 =
        List.replicate (2 + 1) (CertState.mk [] 0).nextSerial ∧
      (iterGetOrCreate "example.com" (2 + 1) (CertState.mk [] 0)).2.nextSerial =
        (CertState.mk [] 0).nextSerial + 1 ∧
      certLookup (iterGetOrCreate "example.com" (2 + 1)
          (CertState.mk [] 0)).2.cache "example.com" =
        some (CertState.mk [] 0).nextSerial) :=
  ⟨rfl, getOrCreateCert_unique "example.com" (CertState.mk [] 0) 2 rfl⟩

/-- C9 counterexample — the claim's case-insensitive matching disagrees with
the code: for host `API.OPENAI.COM` with path `/v1/chat/completions`, the
claim's rule resolves OpenAI, but both `HTTPSProxy.detectAIProvider`
(exact, case-sensitive equality) and `HTTPProxy.detectAIProvider`
(case-sensitive containment) return no provider. -/
theorem detect_case_sensitivity :
    (detectClaim "API.OPENAI.COM" "/v1/chat/completions").map (·.name) =
      some "OpenAI" ∧
    detectAIProviderHTTPS "API.OPENAI.COM" "/v1/chat/completions" = none ∧
    detectAIProviderHTTP "API.OPENAI.COM" "/v1/chat/completions" = none ∧
    detectAIProviderProd "API.OPENAI.COM" "/v1/chat/completions" = none := by
  refine ⟨by decide, by decide, by decide, by decide⟩

/-- C9 (amended) — provider detection is case-sensitive.
`HTTPSProxy.detectAIProvider` returns the first provider having a domain
pattern that matches the host — a pattern beginning with `*` matching when
the host ends with the pattern with the `*` characters removed (keeping the
dot), any other pattern requiring exact equality — and some API pattern
that is a prefix of the path. `HTTPProxy.detectAIProvider` (and the
production proxy) instead merely require the host to contain the de-starred
pattern and the path to contain some API pattern, the HTTP proxy first
trying a path-only scan when the host names the observer's own
localhost:8888/8443 endpoint. On `api.openai.com` the HTTPS variant
resolves OpenAI. -/
theorem detect_characterization (host path : String) :
    (detectAIProviderHTTPS host path =
      knownAIProviders.find? fun p =>
        p.domains.any (fun d =>
          (strStarts d "*" && strEnds host (dropStars d)) ||
            (!strStarts d "*" && host == d)) &&
          p.apiPatterns.any (fun a => strStarts path a)) ∧
    (detectAIProviderProd host path =
      knownAIProviders.find? fun p =>
        p.domains.any (fun d => strHas host (dropStars d)) &&
          p.apiPatterns.any (fun a => strHas path a)) ∧
    (detectAIProviderHTTP host path =
      match (if strHas host "localhost" && (strHas host "8888" || strHas host "8443")
          then knownAIProviders.find? fun p =>
            p.apiPatterns.any (fun a => strHas path a)
          else none) with
      | some p => some p
      | none =>
        knownAIProviders.find? fun p =>
          p.domains.any (fun d => strHas host (dropStars d)) &&
            p.apiPatterns.any (fun a => strHas path a)) ∧
    (detectAIProviderHTTPS "api.openai.com" "/v1/chat/completions").map (·.name) =
      some "OpenAI" := by
  refine ⟨?_, ?_, ?_, by decide⟩
  · exact detectHTTPSGo_eq_find host path knownAIProviders
  · exact detectContainsGo_eq_find host path knownAIProviders
  · simp only [detectAIProviderHTTP, detectPathOnlyGo_eq_find,
      detectContainsGo_eq_find]

/-- The buffer stays strictly below the batch size across one loop
iteration. -/
theorem exporterStep_lt (bs : Nat) (buf : List Signal) (e : ExportEvent)
    (hbs : 1 ≤ bs) (hbuf : buf.length < bs) :
    (exporterStep bs buf e).1.length < bs := by
  cases e with
  | sig s =>
    by_cases h1 : bs ≤ buf.length + 1
    · have h2 : (0:Nat) < buf.length + 1 := by omega
      simp [exporterStep, flushBuf, h1, h2]
      omega
    · simp [exporterStep, flushBuf, h1]
      omega
  | tick =>
    by_cases h : buf = []
    · simp [exporterStep, flushBuf, h]
      omega
    · simp [exporterStep, flushBuf, List.length_pos.mpr h]
      omega
  | shutdown =>
    by_cases h : buf = []
    · simp [exporterStep, flushBuf, h]
      omega
    · simp [exporterStep, flushBuf, List.length_pos.mpr h]
      omega

/-- Filling an exporter buffer: feeding signals whose count tops the buffer
up to exactly the batch size produces a single POST of the whole buffer. -/
theorem exporterRun_fill (bs : Nat) :
    ∀ (sigs buf : List Signal), 1 ≤ bs → buf.length + sigs.length = bs →
      sigs ≠ [] →
      exporterRun bs buf (sigs.map .sig) =
        ([], [buf ++ sigs.map (·.redact ["authorization", "api_key"])]) := by
  intro sigs
  induction sigs with
  | nil => intro buf _ _ hne; exact absurd rfl hne
  | cons s rest ih =>
    intro buf hbs hlen _
    have hlen' : buf.length + (rest.length + 1) = bs := by simpa using hlen
    by_cases hrest : rest = []
    · subst hrest
      have hlen2 : buf.length + 1 = bs := by simpa using hlen'
      have h1 : bs ≤ buf.length + 1 := by omega
      have h2 : (0:Nat) < buf.length + 1 := by omega
      simp [exporterRun, exporterStep, flushBuf, h1, h2]
    · have hne' : rest.length ≠ 0 := fun hh => hrest (List.length_eq_zero.mp hh)
      have h1 : ¬ bs ≤ buf.length + 1 := by omega
      have hrec := ih (buf ++ [s.redact ["authorization", "api_key"]]) hbs
        (by simp; omega) hrest
      simp [exporterRun, exporterStep, flushBuf, h1, hrec]

/-- C4 — exporter batching discipline: each incoming signal is redacted then
appended to the buffer; a POST of the entire buffer (which is then
cleared) happens exactly when the buffer tops up to the batch size, when
the timer ticks with a non-empty buffer, or at shutdown with a non-empty
buffer; exactly `batch_size` signals produce exactly one POST carrying all
of them in order; and the buffer stays strictly below the batch size
between loop iterations. -/
theorem exporter_batching (bs : Nat) (buf sigs : List Signal) (s : Signal)
    (e : ExportEvent) (hbs : 1 ≤ bs) (hbuf : buf.length < bs)
    (hsigs : sigs.length = bs) :
    -- incoming signal: redact, append, flush exactly on reaching batch size
    (exporterStep bs buf (.sig s) =
      if buf.length + 1 = bs then
        ([], [buf ++ [s.redact ["authorization", "api_key"]]])
      else (buf ++ [s.redact ["authorization", "api_key"]], [])) ∧
    -- timer tick: flush exactly when the buffer is non-empty
    (exporterStep bs buf .tick = if buf = [] then (buf, []) else ([], [buf])) ∧
    -- shutdown: a final flush, exactly when the buffer is non-empty
    (exporterStep bs buf .shutdown =
      if buf = [] then (buf, []) else ([], [buf])) ∧
    -- batch_size signals in quick succession: exactly one POST with all of them
    (exporterRun bs [] (sigs.map .sig) =
      ([], [sigs.map (·.redact ["authorization", "api_key"])])) ∧
    -- the buffer never reaches the batch size between iterations
    (exporterStep bs buf e).1.length < bs := by
  refine ⟨?_, ?_, ?_, ?_, exporterStep_lt bs buf e hbs hbuf⟩
  · by_cases h : buf.length + 1 = bs
    · have h1 : bs ≤ buf.length + 1 := by omega
      have h2 : (0:Nat) < buf.length + 1 := by omega
      simp [exporterStep, flushBuf, h, h1, h2] <;> omega
    · have h1 : ¬ bs ≤ buf.length + 1 := by omega
      simp [exporterStep, flushBuf, h, h1]
  · by_cases h : buf = []
    · simp [exporterStep, flushBuf, h]
    · simp [exporterStep, flushBuf, h, List.length_pos.mpr h]
  · by_cases h : buf = []
    · simp [exporterStep, flushBuf, h]
    · simp [exporterStep, flushBuf, h, List.length_pos.mpr h]
  · have hne : sigs ≠ [] := by
      intro hh
      rw [hh] at hsigs
      simp at hsigs
      omega
    simpa using exporterRun_fill bs sigs [] hbs (by simpa using hsigs) hne

/-- Witness for C4 at a concrete input: batch size 2, two signals. -/
theorem exporter_batching_witness :
    (1 ≤ 2 ∧
      ([{ id := "s0" }] : List Signal).length < 2 ∧
      ([{ id := "s1" }, { id := "s2" }] : List Signal).length = 2) ∧
    ((exporterStep 2 [{ id := "s0" }] (.sig { id := "s3" }) =
        if ([{ id := "s0" }] : List Signal).length + 1 = 2 then
          ([], [[{ id := "s0" }] ++
            [Signal.redact { id := "s3" } ["authorization", "api_key"]]])
        else ([{ id := "s0" }] ++
          [Signal.redact { id := "s3" } ["authorization", "api_key"]], [])) ∧
      (exporterStep 2 [{ id := "s0" }] .tick =
        if ([{ id := "s0" }] : List Signal) = [] then ([{ id := "s0" }], [])
        else ([], [[{ id := "s0" }]])) ∧
      (exporterStep 2 [{ id := "s0" }] .shutdown =
        if ([{ id := "s0" }] : List Signal) = [] then ([{ id := "s0" }], [])
        else ([], [[{ id := "s0" }]])) ∧
      (exporterRun 2 [] (([{ id := "s1" }, { id := "s2" }] : List Signal).map .sig) =
        ([], [([{ id := "s1" }, { id := "s2" }] : List Signal).map
          (·.redact ["authorization", "api_key"])])) ∧
      (exporterStep 2 [{ id := "s0" }] .tick).1.length < 2) :=
  ⟨⟨by decide, by decide, by decide⟩,
    exporter_batching 2 [{ id := "s0" }] [{ id := "s1" }, { id := "s2" }]
      { id := "s3" } .tick (by decide) (by decide) (by decide)⟩

/-- C7 — the claim fails on the code. `matchesConditions` ranges over the
conditions map and passes each KEY to `regexp.MatchString` as the pattern
(`for pattern := range conditions`), while the built-in rules store the
regex in the VALUE under the field-name key `"content"` — the struct's own
comment reads `Conditions map[string]string // field -> regex pattern`.
The key `"content"`, read as a regex, is not found in
`"please cold call these leads"`, so no pattern (and hence no rule) is
matched and `DetectTask` returns nil at the spec's example input, instead
of the claimed `cold_calling` task. The regex stored in the value — the
check the claim and the spec describe — would have matched. -/
theorem detectTask_cold_call_nil (cust agent sid : String) (ts now : Int) :
    -- evaluation of the code at the failing input: no task is produced
    detectTask goRegexMatch now
        { id := sid, customerID := cust, agentID := agent, timestamp := ts,
          metadata := [("prompt_preview", .str "please cold call these leads")] }
      = none ∧
    -- the evaluation the code performs: the condition KEY as the regex
    goRegexMatch "content" "please cold call these leads" = some false ∧
    -- the evaluation the claim describes: the stored regex VALUE matches
    goRegexMatch "(?i)(cold call|lead generation|prospecting|sales call|outreach)"
      "please cold call these leads" = some true :=
  ⟨rfl, rfl, rfl⟩

/-- C8 counterexample — a pattern whose only condition is the invalid regex
`"("` is considered *matched* by `matchesConditions` (the error branch
`continue`s past the condition), whereas treating the invalid regex as
non-matching would make the pattern unmatched. -/
theorem invalid_regex_pattern_matches :
    goRegexMatch "(" "make some calls" = none ∧
    matchesConditions goRegexMatch "make some calls" [("(", "x")] = true :=
  ⟨rfl, rfl⟩

/-- C8 (amended) — during rule evaluation a condition whose regex fails to
compile is logged and *skipped* (treated as vacuously satisfied, not as
non-matching): for every regex oracle, `matchesConditions` holds iff no
condition compiles to a non-match, so an invalid regex never blocks — and
can even enable — a pattern match; evaluation is total, so it never
crashes. -/
theorem matchesConditions_skips_invalid (rx : String → String → Option Bool)
    (text : String) (conds : List (String × String)) :
    matchesConditions rx text conds =
      conds.all fun c => (rx c.1 text).getD true := by
  induction conds with
  | nil => rfl
  | cons c rest ih =>
    cases h : rx c.1 text with
    | none => simp [matchesConditions, h, ih]
    | some b => cases b <;> simp [matchesConditions, h, ih]

end Axom

